import Mathlib

/-!
Shallow embedding of the SE_BME680 indoor-air-quality calibration engine
(files `SE_BME680.h`, `SE_BME680.cpp`, `DonchianAverage.h`).

Modelling conventions:
* C `double`/`float` values that can become NaN or infinite (the humidity
  compensation chain and everything it feeds: the calibration buffer, the
  gas ceiling, the IAQ score) are modelled by the type `D` below, an exact
  IEEE-style arithmetic over `ℚ` extended with `+inf`, `-inf` and `NaN`.
  Rounding is ignored (values are exact rationals); the special-value
  propagation rules follow IEEE-754.
* The transcendental `exp` is not computable over `ℚ`; it is passed to the
  cycle function as an explicit parameter `e : D → D`, so every theorem
  quantifies over the exponential (IEEE `exp` returns `+inf` on overflow,
  which such a parameter can model).
* `millis()` (an `unsigned long`, 32 bits on the target) is passed in as a
  `now : ℕ` argument; the stored timer and all timer subtractions are
  reduced modulo `2^32` exactly as C unsigned arithmetic does.
* `DonchianAverage` holds `float` data that never becomes NaN/Inf on the
  paths the engine uses (raw sensor readings), so it is modelled over `ℚ`.
* `new float[n]` leaves the array uninitialized; the model uses zeros.
  The `track` walk only ever reads slots that have been written, so the
  placeholder values are never observed.
-/

/-- IEEE-754-style scalar: an exact rational, `+inf`, `-inf`, or `NaN`. -/
inductive D where
  | fin : ℚ → D
  | pinf : D
  | ninf : D
  | nan : D
deriving DecidableEq

/-- IEEE negation. -/
def D.neg : D → D
  | .fin q => .fin (-q)
  | .pinf => .ninf
  | .ninf => .pinf
  | .nan => .nan

/-- IEEE addition (inf + (-inf) = NaN, NaN propagates). -/
def D.add : D → D → D
  | .nan, _ => .nan
  | _, .nan => .nan
  | .fin a, .fin b => .fin (a + b)
  | .fin _, .pinf => .pinf
  | .fin _, .ninf => .ninf
  | .pinf, .fin _ => .pinf
  | .ninf, .fin _ => .ninf
  | .pinf, .pinf => .pinf
  | .ninf, .ninf => .ninf
  | .pinf, .ninf => .nan
  | .ninf, .pinf => .nan

/-- IEEE subtraction, `a - b = a + (-b)`. -/
def D.sub (a b : D) : D := D.add a (D.neg b)

/-- IEEE multiplication (0 * inf = NaN, signs as usual, NaN propagates). -/
def D.mul : D → D → D
  | .nan, _ => .nan
  | _, .nan => .nan
  | .fin a, .fin b => .fin (a * b)
  | .fin a, .pinf => if 0 < a then .pinf else if a < 0 then .ninf else .nan
  | .fin a, .ninf => if 0 < a then .ninf else if a < 0 then .pinf else .nan
  | .pinf, .fin b => if 0 < b then .pinf else if b < 0 then .ninf else .nan
  | .ninf, .fin b => if 0 < b then .ninf else if b < 0 then .pinf else .nan
  | .pinf, .pinf => .pinf
  | .pinf, .ninf => .ninf
  | .ninf, .pinf => .ninf
  | .ninf, .ninf => .pinf

/-- IEEE division. Signed zeros are not modelled: a finite value divided by
zero takes the sign of the numerator (`0/0 = NaN`). -/
def D.div : D → D → D
  | .nan, _ => .nan
  | _, .nan => .nan
  | .fin a, .fin b =>
      if b = 0 then (if a = 0 then .nan else if 0 < a then .pinf else .ninf)
      else .fin (a / b)
  | .fin _, .pinf => .fin 0
  | .fin _, .ninf => .fin 0
  | .pinf, .fin b => if 0 ≤ b then .pinf else .ninf
  | .ninf, .fin b => if 0 ≤ b then .ninf else .pinf
  | .pinf, .pinf => .nan
  | .pinf, .ninf => .nan
  | .ninf, .pinf => .nan
  | .ninf, .ninf => .nan

/-- IEEE `<` (any comparison with NaN is false). -/
def D.lt : D → D → Bool
  | .nan, _ => false
  | _, .nan => false
  | .fin a, .fin b => decide (a < b)
  | .fin _, .pinf => true
  | .fin _, .ninf => false
  | .pinf, _ => false
  | .ninf, .fin _ => true
  | .ninf, .pinf => true
  | .ninf, .ninf => false

/-- IEEE `==` (NaN compares unequal to everything, itself included). -/
def D.beq : D → D → Bool
  | .fin a, .fin b => decide (a = b)
  | .pinf, .pinf => true
  | .ninf, .ninf => true
  | _, _ => false

/-- C `isnan`. -/
def D.isnan : D → Bool
  | .nan => true
  | _ => false

/-- C `isfinite`: true exactly on ordinary (non-NaN, non-infinite) values. -/
def D.isFinite : D → Bool
  | .fin _ => true
  | _ => false

instance : Add D := ⟨D.add⟩
instance : Sub D := ⟨D.sub⟩
instance : Mul D := ⟨D.mul⟩
instance : Div D := ⟨D.div⟩

/-- The Arduino `min` macro `((a)<(b)?(a):(b))`. -/
def fminM (a b : D) : D := if D.lt a b then a else b

/-- The Arduino `max` macro `((a)>(b)?(a):(b))`. -/
def fmaxM (a b : D) : D := if D.lt b a then a else b

/-- `2^32`, the modulus of Arduino `unsigned long` arithmetic. -/
def M32 : ℕ := 4294967296

/-- C unsigned-long subtraction `a - b` (mod `2^32`). -/
def ulSub (a b : ℕ) : ℕ := ((a % M32) + M32 - (b % M32)) % M32

/-- Conversion of a C `int` to `unsigned long`, as done by the usual
arithmetic conversions in comparisons like `millis() - timer >= initTime`. -/
def u32ofInt (i : ℤ) : ℕ := (i % (M32 : ℤ)).toNat

/-- State of one `DonchianAverage` smoother (`DonchianAverage.h`). -/
structure DonchianAverage where
  data : List ℚ
  dataSize : ℕ
  cursor : ℕ
  dataFull : Bool
  rangeLimitMax : ℚ
  current : ℚ
  min : ℚ
  max : ℚ
  average : ℚ
deriving DecidableEq

/-- The `DonchianAverage(dataArraySize, rangeLimitMax)` constructor.
`new float[n]` is uninitialized; zeros stand in for the unread garbage. -/
def mkDonchianAverage (dataArraySize : ℕ) (rangeLimitMax : ℚ) : DonchianAverage :=
  { data := List.replicate dataArraySize 0
    dataSize := dataArraySize
    cursor := 0
    dataFull := false
    rangeLimitMax := rangeLimitMax
    current := 0
    min := 0
    max := 0
    average := 0 }

/-- The backward walk of `DonchianAverage::track` (the `for (i = 1; i < j; ...)`
loop): `n` remaining iterations, `k` the index just visited, `mn`/`mx` the
running minimum/maximum, `x` the sample just written (`dataPoint`).
Returns the final `(min, max)` pair, honouring the early `break` that
enforces the optional range limit `R`. -/
def walkLoop (data : List ℚ) (dataSize : ℕ) (R x : ℚ) :
    ℕ → ℕ → ℚ → ℚ → ℚ × ℚ
  | 0, _, mn, mx => (mn, mx)
  | n + 1, k, mn, mx =>
      let k' := if k = 0 then dataSize - 1 else k - 1
      let d := data.getD k' 0
      let mn' := if d < mn then d else mn
      let mx' := if mx < d then d else mx
      if R ≠ 0 ∧ R < mx' - mn' then
        if mx' - x < x - mn' then (mx' - R, mx') else (mn', mn' + R)
      else walkLoop data dataSize R x n k' mn' mx'

/-- `DonchianAverage::track(dataPoint)`. -/
def track (s : DonchianAverage) (dataPoint : ℚ) : DonchianAverage :=
  let data := s.data.set s.cursor dataPoint
  let wrapped := s.dataSize ≤ s.cursor + 1
  let cursor := if wrapped then 0 else s.cursor + 1
  let dataFull := if wrapped then true else s.dataFull
  let j := if dataFull then s.dataSize else cursor
  let k := if cursor = 0 then s.dataSize - 1 else cursor - 1
  let anchor := data.getD k 0
  let mm := walkLoop data s.dataSize s.rangeLimitMax dataPoint (j - 1) k anchor anchor
  { s with data := data, cursor := cursor, dataFull := dataFull, current := dataPoint,
           min := mm.1, max := mm.2, average := (mm.1 + mm.2) / 2 }

/-- `GAS_CALIBRATION_DATA_POINTS` from `SE_BME680.h`. -/
def GAS_CALIBRATION_DATA_POINTS : ℕ := 100

/-- The calibration-engine state of an `SE_BME680` object: exactly the
private/public members of the class that the IAQ engine reads or writes
(`SE_BME680.h`).  C `int`/`int32_t` fields are modelled as `ℤ`, `uint32_t`
and `unsigned long` as `ℕ` (timers kept below `2^32`), `double`/`float`
values fed by the compensation chain as `D`. -/
structure SE_BME680 where
  donchian_enabled : Bool
  temperature_donchian : DonchianAverage
  humidity_donchian : DonchianAverage
  gas_resistance_donchian : DonchianAverage
  gas_calibration_data : List D
  gas_calibration_data_index : ℕ
  gas_ceiling : D
  gas_calibration_range : D
  gas_calibration_timer : ℕ
  gas_calibration_stage : ℕ
  gas_stage_0_last_low : ℕ
  gas_stage_0_low_count : ℤ
  gas_resistance_limit_min : ℕ
  gas_resistance_limit_max : ℕ
  gas_calibration_init_time : ℤ
  gas_calibration_burnin_time : ℤ
  gas_calibration_decay_time : ℤ
  iaq_slope_factor : ℚ
  sensor_uptime : ℤ
  IAQ : D
  IAQ_accuracy : ℤ
deriving DecidableEq

/-- State right after any constructor ran: the in-class member initializers
of `SE_BME680.h` followed by `SE_BME680::initialize()` with `millis() = now`. -/
def initialState (now : ℕ) : SE_BME680 :=
  { donchian_enabled := false
    temperature_donchian := mkDonchianAverage 0 0
    humidity_donchian := mkDonchianAverage 0 0
    gas_resistance_donchian := mkDonchianAverage 0 0
    gas_calibration_data := List.replicate GAS_CALIBRATION_DATA_POINTS (D.fin 0)
    gas_calibration_data_index := 0
    gas_ceiling := D.fin 0
    gas_calibration_range := D.fin 1
    gas_calibration_timer := now % M32
    gas_calibration_stage := 0
    gas_stage_0_last_low := 0
    gas_stage_0_low_count := 0
    gas_resistance_limit_min := 50000
    gas_resistance_limit_max := 225000
    gas_calibration_init_time := 30000
    gas_calibration_burnin_time := 300000
    gas_calibration_decay_time := 1800000
    iaq_slope_factor := 0.03
    sensor_uptime := 0
    IAQ := D.fin 50
    IAQ_accuracy := 0 }

/-- The smallest-slot scan of `SE_BME680::updateGasCalibration`: walk the
remaining slots `l`, carrying the smallest value seen (`sv`), its index
(`si`), and the index `i` of the head of `l`. -/
def smallestScan : List D → D → ℕ → ℕ → D × ℕ
  | [], sv, si, _ => (sv, si)
  | d :: rest, sv, si, i =>
      if D.lt d sv then smallestScan rest d i (i + 1)
      else smallestScan rest sv si (i + 1)

/-- Smallest value and its (first) index in the calibration array, exactly as
the `for (i = 1; ...)` loop of `updateGasCalibration` computes them. -/
def smallestOf (l : List D) : D × ℕ := smallestScan l.tail (l.headD D.nan) 0 1

/-- The statistics loop of `updateGasCalibration`: fold over the array
carrying `(sum, calMin, calMax, count)`, skipping entries not `> 0`, with
the `calMin == 0` / `calMax == 0` seeding exactly as in the C source. -/
def calScanAux : List D → D → D → D → ℕ → D × D × D × ℕ
  | [], sum, mn, mx, c => (sum, mn, mx, c)
  | d :: rest, sum, mn, mx, c =>
      if D.lt (D.fin 0) d then
        calScanAux rest (sum + d)
          (if D.beq mn (D.fin 0) then d else fminM mn d)
          (if D.beq mx (D.fin 0) then d else fmaxM mx d)
          (c + 1)
      else calScanAux rest sum mn mx c

/-- `(sum, calMin, calMax, count)` over a calibration array. -/
def calScan (l : List D) : D × D × D × ℕ :=
  calScanAux l (D.fin 0) (D.fin 0) (D.fin 0) 0

/-- `SE_BME680::updateGasCalibration(compensated_gas, replaceSmallest)`. -/
def updateGasCalibration (s : SE_BME680) (compensated_gas : D)
    (replaceSmallest : Bool) : SE_BME680 :=
  let data := s.gas_calibration_data
  let full := D.lt (D.fin 0) (data.getD (GAS_CALIBRATION_DATA_POINTS - 1) D.nan)
  let step :=
    if replaceSmallest = true ∧ full = true then
      let sm := smallestOf data
      (if D.lt sm.1 compensated_gas then data.set sm.2 compensated_gas else data,
       s.gas_calibration_data_index)
    else
      (data.set s.gas_calibration_data_index compensated_gas,
       if GAS_CALIBRATION_DATA_POINTS ≤ s.gas_calibration_data_index + 1 then 0
       else s.gas_calibration_data_index + 1)
  let sc := calScan step.1
  let mean := sc.1 / D.fin (sc.2.2.2 : ℚ)
  { s with
    gas_calibration_data := step.1
    gas_calibration_data_index := step.2
    gas_calibration_range :=
      if sc.2.2.2 ≠ 0 ∧ D.lt (D.fin 0) sc.2.2.1 = true then
        (sc.2.2.1 - sc.2.1) / sc.2.2.1
      else s.gas_calibration_range
    gas_ceiling :=
      if sc.2.2.2 ≠ 0 ∧ D.isnan mean = false then mean else s.gas_ceiling }

/-- Whether Donchian smoothing is applied this cycle (`SE_BME680.cpp:142`):
enabled, and the initialization stage has finished. -/
def smoothingActive (s : SE_BME680) : Prop :=
  s.donchian_enabled = true ∧ 1 ≤ s.gas_calibration_stage

instance (s : SE_BME680) : Decidable (smoothingActive s) := by
  unfold smoothingActive; infer_instance

/-- The tracker updates of `calculateIAQ` (the three `track` calls),
folded into the engine state. -/
def trackAll (s : SE_BME680) (temperature humidity : ℚ) (gas_resistance : ℕ) :
    SE_BME680 :=
  { s with
    temperature_donchian :=
      if smoothingActive s then track s.temperature_donchian temperature
      else s.temperature_donchian
    humidity_donchian :=
      if smoothingActive s then track s.humidity_donchian humidity
      else s.humidity_donchian
    gas_resistance_donchian :=
      if smoothingActive s then track s.gas_resistance_donchian (gas_resistance : ℚ)
      else s.gas_resistance_donchian }

/-- The smoothed `(temperature, humidity, gas_resistance)` triple used by the
compensation math: the Donchian averages after this cycle's `track` calls
when smoothing is active, the raw readings otherwise.  The C cast
`(uint32_t)round(...)` is modelled by `Int.toNat (round ...)` (the gas
average is non-negative on every reachable state). -/
def smoothedVals (s : SE_BME680) (temperature humidity : ℚ) (gas_resistance : ℕ) :
    ℚ × ℚ × ℕ :=
  if smoothingActive s then
    ((track s.temperature_donchian temperature).average,
     (track s.humidity_donchian humidity).average,
     Int.toNat (round (track s.gas_resistance_donchian (gas_resistance : ℚ)).average))
  else (temperature, humidity, gas_resistance)

/-- The humidity-compensation chain of `calculateIAQ` (`SE_BME680.cpp:155-164`):
saturation water vapor density, absolute humidity, exponential factor, and
the pair `(compensated_gas_r, compensated_gas_r_min)`.  `e` is the C `exp`. -/
def compValues (e : D → D) (s : SE_BME680) (temperature humidity : ℚ)
    (gas_resistance : ℕ) : D × D :=
  let sm := smoothedVals s temperature humidity gas_resistance
  let ts := D.fin sm.1
  let hs := D.fin sm.2.1
  let svd := D.fin 6.112 * D.fin 100 * e (D.fin 17.625 * ts / (D.fin 243.04 + ts)) /
      (D.fin 461.52 * (ts + D.fin 273.15))
  let hum_abs := hs * D.fin 10 * svd
  let factor := e (D.fin s.iaq_slope_factor * hum_abs)
  (D.fin (sm.2.2 : ℚ) * factor, D.fin (s.gas_resistance_limit_min : ℚ) * factor)

/-- The `switch (gas_calibration_stage)` of `calculateIAQ`
(`SE_BME680.cpp:168-235`), with `millis() = now`, the raw reading
`gas_resistance`, and the compensated pair `(r, rmin)`. -/
def calSwitch (s : SE_BME680) (now gas_resistance : ℕ) (r rmin : D) : SE_BME680 :=
  match s.gas_calibration_stage with
  | 0 =>
      if u32ofInt s.gas_calibration_init_time ≤ ulSub now s.gas_calibration_timer then
        if s.gas_stage_0_last_low = 0 then
          { s with gas_stage_0_last_low := gas_resistance, gas_stage_0_low_count := 0 }
        else if gas_resistance < s.gas_stage_0_last_low then
          { s with gas_stage_0_last_low := gas_resistance, gas_stage_0_low_count := 0 }
        else if s.gas_stage_0_last_low < gas_resistance then
          if 3 ≤ s.gas_stage_0_low_count + 1 then
            { s with gas_stage_0_low_count := s.gas_stage_0_low_count + 1,
                     gas_calibration_timer := now % M32, gas_calibration_stage := 1 }
          else { s with gas_stage_0_low_count := s.gas_stage_0_low_count + 1 }
        else s
      else s
  | 1 =>
      if ulSub now s.gas_calibration_timer < u32ofInt s.gas_calibration_burnin_time ∨
          D.beq (s.gas_calibration_data.getD (GAS_CALIBRATION_DATA_POINTS - 1) D.nan)
            (D.fin 0) = true then
        updateGasCalibration s (fmaxM r rmin) true
      else { s with gas_calibration_timer := now % M32, gas_calibration_stage := 2 }
  | 2 =>
      if D.lt rmin r then
        if D.lt s.gas_ceiling r then updateGasCalibration s r true
        else if u32ofInt s.gas_calibration_decay_time ≤ ulSub now s.gas_calibration_timer then
          let s2 := updateGasCalibration s r false
          { s2 with gas_calibration_timer := now % M32,
                    sensor_uptime := s2.sensor_uptime + 1 }
        else s
      else s
  | _ + 3 => s

/-- The IAQ scorer of `calculateIAQ` (`SE_BME680.cpp:237-243`): for ceiling
`c` truthy (`!= 0` in the IEEE sense), `min((r/c)^2 * 100, 100)` via the
Arduino `min` macro; otherwise the previous score is kept. -/
def iaqScore (r c prev : D) : D :=
  if D.beq c (D.fin 0) then prev
  else fminM (r / c * (r / c) * D.fin 100) (D.fin 100)

/-- The accuracy grading `switch` of `calculateIAQ` (`SE_BME680.cpp:246-260`). -/
def iaqAccuracy (stage : ℕ) (range : D) (uptime : ℤ) (prev : ℤ) : ℤ :=
  match stage with
  | 0 => 0
  | 1 => 1
  | 2 =>
      let a2 : ℤ := if D.lt range (D.fin 0.075) then 2 else 1
      let a3 : ℤ := if D.lt range (D.fin 0.035) = true ∧ 2 ≤ uptime then 3 else a2
      if D.lt range (D.fin 0.02) = true ∧ 100 ≤ uptime then 4 else a3
  | _ + 3 => prev

/-- `SE_BME680::calculateIAQ()`, one full engine cycle: the spurious-reading
gate, Donchian smoothing, humidity compensation with the `isnan` guard, the
calibration state machine, the scorer and the accuracy grade.  `e` is the C
`exp`; `now` is `millis()`. -/
def cycle (e : D → D) (s : SE_BME680) (now : ℕ) (temperature humidity : ℚ)
    (gas_resistance : ℕ) : SE_BME680 :=
  if s.gas_resistance_limit_max < gas_resistance then
    if s.gas_calibration_stage < 2 then
      { s with gas_calibration_timer := (s.gas_calibration_timer + 1000) % M32 }
    else s
  else
    let s1 := trackAll s temperature humidity gas_resistance
    let rp := compValues e s temperature humidity gas_resistance
    if D.isnan rp.1 = true ∨ D.isnan rp.2 = true then s1
    else
      let s2 := calSwitch s1 now gas_resistance rp.1 rp.2
      let s3 := { s2 with IAQ := iaqScore rp.1 s2.gas_ceiling s2.IAQ }
      let acc := iaqAccuracy s3.gas_calibration_stage s3.gas_calibration_range
        s3.sensor_uptime s3.IAQ_accuracy
      { s3 with IAQ_accuracy := acc }

/-- One cycle's inputs: `millis()` and the three raw readings. -/
structure CycleInput where
  now : ℕ
  temperature : ℚ
  humidity : ℚ
  gas_resistance : ℕ
deriving DecidableEq

/-- Run a sequence of engine cycles. -/
def runCycles (e : D → D) (s : SE_BME680) (l : List CycleInput) : SE_BME680 :=
  l.foldl (fun st i => cycle e st i.now i.temperature i.humidity i.gas_resistance) s

/-- `SE_BME680::setDonchianSmoothing(enabled, periods)` (as defined in
`SE_BME680.cpp`; the trailing per-channel range-limit parameters declared in
the header are absent from the definition, so the trackers are built with
the default `rangeLimitMax = 0`). -/
def setDonchianSmoothing (s : SE_BME680) (enabled : Bool) (periods : ℤ) : SE_BME680 :=
  if enabled = true ∧ 2 ≤ periods then
    { s with donchian_enabled := enabled
             temperature_donchian := mkDonchianAverage periods.toNat 0
             humidity_donchian := mkDonchianAverage periods.toNat 0
             gas_resistance_donchian := mkDonchianAverage periods.toNat 0 }
  else s

/-- `SE_BME680::setGasCompensationSlopeFactor(slopeFactor)`: stores the
factor unconditionally and returns `true` (the range validation is only a
`TODO` comment in the source). -/
def setGasCompensationSlopeFactor (s : SE_BME680) (slopeFactor : ℚ) :
    Bool × SE_BME680 :=
  (true, { s with iaq_slope_factor := slopeFactor })

/-- `SE_BME680::setUpperGasResistanceLimits(minLimit, maxLimit)`. -/
def setUpperGasResistanceLimits (s : SE_BME680) (minLimit maxLimit : ℕ) :
    Bool × SE_BME680 :=
  if 30000 ≤ minLimit ∧ maxLimit ≤ 2000000 ∧ minLimit ≤ maxLimit then
    (true, { s with gas_resistance_limit_min := minLimit,
                    gas_resistance_limit_max := maxLimit })
  else (false, s)

/-- `SE_BME680::setGasCalibrationTimings(initTime, burninTime, decayTime)`. -/
def setGasCalibrationTimings (s : SE_BME680) (initTime burninTime decayTime : ℤ) :
    Bool × SE_BME680 :=
  if 0 < initTime ∧ initTime ≤ burninTime ∧ burninTime ≤ decayTime then
    let i := if initTime < 1000 then 1000 else initTime
    let b := if burninTime < i + 1000 then i + 1000 else burninTime
    let d := if decayTime < b + 60000 then b + 60000 else decayTime
    (true, { s with gas_calibration_init_time := i,
                    gas_calibration_burnin_time := b,
                    gas_calibration_decay_time := d })
  else (false, s)

/-- Repeated buffer insertion with `replaceSmallest = false` (the plain
rotation policy), as used to state the Calibration Buffer properties. -/
def insertAll (s : SE_BME680) (vs : List ℚ) : SE_BME680 :=
  vs.foldl (fun st v => updateGasCalibration st (D.fin v) false) s

/-- An exponential that overflows everywhere: models IEEE `exp` returning
`+inf` for large arguments (reachable, e.g., with a large stored slope
factor, which `setGasCompensationSlopeFactor` accepts unvalidated). -/
def cxExp : D → D := fun _ => D.pinf

/-- A burn-in-stage engine state with Donchian smoothing active (window 2)
and an empty calibration buffer. -/
def cxState : SE_BME680 :=
  { initialState 0 with
    gas_calibration_stage := 1
    donchian_enabled := true
    temperature_donchian := mkDonchianAverage 2 0
    humidity_donchian := mkDonchianAverage 2 0
    gas_resistance_donchian := mkDonchianAverage 2 0 }

theorem updateGasCalibration_trackers (s : SE_BME680) (v : D) (b : Bool) :
    (updateGasCalibration s v b).temperature_donchian = s.temperature_donchian := rfl

/-- A concrete fully populated, self-consistent buffer state (all slots
hold 1) used to exercise the replace-smallest policy. -/
def c5State : SE_BME680 :=
  { initialState 0 with
    gas_calibration_data := ((1 : ℚ) :: List.replicate 99 1).map D.fin
    gas_ceiling := D.fin (((1 : ℚ) :: List.replicate 99 1).sum / 100)
    gas_calibration_range :=
      D.fin ((List.foldl Max.max 1 (List.replicate 99 (1 : ℚ)) -
        List.foldl Min.min 1 (List.replicate 99 (1 : ℚ))) /
        List.foldl Max.max 1 (List.replicate 99 (1 : ℚ))) }

/-! ### Basic reduction lemmas for `D` arithmetic on finite values -/

theorem D.add_fin (a b : ℚ) : D.fin a + D.fin b = D.fin (a + b) := rfl

theorem D.mul_fin (a b : ℚ) : D.fin a * D.fin b = D.fin (a * b) := rfl

theorem D.sub_fin (a b : ℚ) : D.fin a - D.fin b = D.fin (a - b) := by
  show D.fin (a + -b) = D.fin (a - b)
  rw [← sub_eq_add_neg]

theorem D.div_fin (a b : ℚ) (hb : b ≠ 0) : D.fin a / D.fin b = D.fin (a / b) := by
  show D.div (D.fin a) (D.fin b) = D.fin (a / b)
  simp [D.div, hb]

theorem D.lt_fin (a b : ℚ) : D.lt (D.fin a) (D.fin b) = decide (a < b) := rfl

theorem D.beq_fin (a b : ℚ) : D.beq (D.fin a) (D.fin b) = decide (a = b) := rfl

theorem D.isnan_fin (a : ℚ) : D.isnan (D.fin a) = false := rfl

/-! ### C6 — Range Tracker invariants -/

/-- Invariant of the backward walk: starting from a running pair with
`mn ≤ mx` and `mx - mn ≤ R` (for a positive cap `R`), the pair returned by
`walkLoop` again satisfies both bounds, whether the loop runs to completion
or breaks early and clamps. -/
theorem walkLoop_invariant (data : List ℚ) (dsz : ℕ) (R x : ℚ) (hR : 0 < R) :
    ∀ (n k : ℕ) (mn mx : ℚ), mn ≤ mx → mx - mn ≤ R →
      (walkLoop data dsz R x n k mn mx).1 ≤ (walkLoop data dsz R x n k mn mx).2 ∧
      (walkLoop data dsz R x n k mn mx).2 - (walkLoop data dsz R x n k mn mx).1 ≤ R := by
  intro n
  induction n with
  | zero =>
      intro k mn mx h1 h2
      exact ⟨h1, h2⟩
  | succ m ih =>
      intro k mn mx h1 h2
      simp only [walkLoop]
      set k' := if k = 0 then dsz - 1 else k - 1 with hk
      set d := data.getD k' 0 with hd
      set mn' := if d < mn then d else mn with hmn
      set mx' := if mx < d then d else mx with hmx
      have hmnle : mn' ≤ mn := by rw [hmn]; split_ifs <;> linarith
      have hmxle : mx ≤ mx' := by rw [hmx]; split_ifs <;> linarith
      have horder : mn' ≤ mx' := le_trans hmnle (le_trans h1 hmxle)
      by_cases hb : R ≠ 0 ∧ R < mx' - mn'
      · rw [if_pos hb]
        split_ifs with hdir
        · exact ⟨by show mx' - R ≤ mx'; linarith, by show mx' - (mx' - R) ≤ R; linarith⟩
        · exact ⟨by show mn' ≤ mn' + R; linarith, by show mn' + R - mn' ≤ R; linarith⟩
      · rw [if_neg hb]
        have hle : mx' - mn' ≤ R := by
          rcases not_and_or.mp hb with h | h
          · exact absurd (ne_of_gt hR) h
          · linarith [not_lt.mp h]
        exact ih k' mn' mx' horder hle

/-- A single `track` call under a positive range cap: the reported range
never exceeds the cap, and `average` is the midpoint of `min ≤ max`. -/
theorem track_invariants (s : DonchianAverage) (x : ℚ) (hR : 0 < s.rangeLimitMax) :
    (track s x).max - (track s x).min ≤ s.rangeLimitMax ∧
    (track s x).min ≤ (track s x).max ∧
    (track s x).average = ((track s x).min + (track s x).max) / 2 := by
  have h := walkLoop_invariant (s.data.set s.cursor x) s.dataSize s.rangeLimitMax x hR
  refine ⟨?_, ?_, rfl⟩
  · exact (h _ _ _ _ le_rfl (by simp [sub_self, le_of_lt hR])).2
  · exact (h _ _ _ _ le_rfl (by simp [sub_self, le_of_lt hR])).1

theorem track_keeps_rangeLimitMax (s : DonchianAverage) (x : ℚ) :
    (track s x).rangeLimitMax = s.rangeLimitMax := rfl

theorem foldl_track_rangeLimitMax (l : List ℚ) (s : DonchianAverage) :
    (List.foldl track s l).rangeLimitMax = s.rangeLimitMax := by
  induction l generalizing s with
  | nil => rfl
  | cons y ys ih => simp only [List.foldl_cons, ih, track_keeps_rangeLimitMax]

/-- C6: for every tracker built with a positive range cap `R` and every
sequence of tracked samples, after each `track` call (i.e. after the last
call of any non-empty sequence) the reported `max − min` is at most `R`,
and `min ≤ average ≤ max` holds with `average = (min + max)/2`. -/
theorem donchian_cap_and_midpoint (n : ℕ) (R : ℚ) (xs : List ℚ) (x : ℚ)
    (hR : 0 < R) :
    (List.foldl track (mkDonchianAverage n R) (xs ++ [x])).max -
      (List.foldl track (mkDonchianAverage n R) (xs ++ [x])).min ≤ R ∧
    (List.foldl track (mkDonchianAverage n R) (xs ++ [x])).min ≤
      (List.foldl track (mkDonchianAverage n R) (xs ++ [x])).average ∧
    (List.foldl track (mkDonchianAverage n R) (xs ++ [x])).average ≤
      (List.foldl track (mkDonchianAverage n R) (xs ++ [x])).max ∧
    (List.foldl track (mkDonchianAverage n R) (xs ++ [x])).average =
      ((List.foldl track (mkDonchianAverage n R) (xs ++ [x])).min +
        (List.foldl track (mkDonchianAverage n R) (xs ++ [x])).max) / 2 := by
  rw [List.foldl_append]
  set s := List.foldl track (mkDonchianAverage n R) xs with hs
  have hRs : 0 < s.rangeLimitMax := by
    rw [hs, foldl_track_rangeLimitMax]
    exact hR
  have h := track_invariants s x hRs
  have hcap : (track s x).max - (track s x).min ≤ R := by
    have : s.rangeLimitMax = R := by rw [hs, foldl_track_rangeLimitMax]; rfl
    simpa [List.foldl_cons, this] using h.1
  refine ⟨by simpa using hcap, ?_, ?_, by simpa using h.2.2⟩
  · simp only [List.foldl_cons, List.foldl_nil, h.2.2]
    linarith [h.2.1]
  · simp only [List.foldl_cons, List.foldl_nil, h.2.2]
    linarith [h.2.1]

/-- Witness for C6 at a concrete tracker and sample. -/
theorem donchian_cap_and_midpoint_witness :
    (List.foldl track (mkDonchianAverage 2 1) ([] ++ [3])).max -
      (List.foldl track (mkDonchianAverage 2 1) ([] ++ [3])).min ≤ 1 ∧
    (List.foldl track (mkDonchianAverage 2 1) ([] ++ [3])).min ≤
      (List.foldl track (mkDonchianAverage 2 1) ([] ++ [3])).average ∧
    (List.foldl track (mkDonchianAverage 2 1) ([] ++ [3])).average ≤
      (List.foldl track (mkDonchianAverage 2 1) ([] ++ [3])).max ∧
    (List.foldl track (mkDonchianAverage 2 1) ([] ++ [3])).average =
      ((List.foldl track (mkDonchianAverage 2 1) ([] ++ [3])).min +
        (List.foldl track (mkDonchianAverage 2 1) ([] ++ [3])).max) / 2 :=
  donchian_cap_and_midpoint 2 1 [] 3 (by norm_num)

theorem fminM_fin (a b : ℚ) : fminM (D.fin a) (D.fin b) = D.fin (min a b) := by
  unfold fminM
  rw [D.lt_fin]
  by_cases h : a < b
  · simp [h, min_eq_left h.le]
  · simp [h, min_eq_right (not_lt.mp h)]

theorem fmaxM_fin (a b : ℚ) : fmaxM (D.fin a) (D.fin b) = D.fin (max a b) := by
  unfold fmaxM
  rw [D.lt_fin]
  by_cases h : b < a
  · simp [h, max_eq_left h.le]
  · simp [h, max_eq_right (not_lt.mp h)]

/-! ### C2 — IAQ scorer formula -/

/-- C2: for non-negative compensated resistance `r` and positive ceiling `c`
the computed score is `min(100, (r/c)² · 100)`, hence never exceeds 100, and
`r = c` yields exactly 100; a zero ceiling keeps the previous score, whose
engine default is 50. -/
theorem iaq_score_formula (r c p : ℚ) (hr : 0 ≤ r) (hc : 0 < c) :
    iaqScore (D.fin r) (D.fin c) (D.fin p) = D.fin (min 100 ((r / c) ^ 2 * 100)) ∧
    (∀ q : ℚ, iaqScore (D.fin r) (D.fin c) (D.fin p) = D.fin q → q ≤ 100) ∧
    (r = c → iaqScore (D.fin r) (D.fin c) (D.fin p) = D.fin 100) ∧
    iaqScore (D.fin r) (D.fin 0) (D.fin p) = D.fin p ∧
    (initialState 0).IAQ = D.fin 50 := by
  have hc0 : c ≠ 0 := ne_of_gt hc
  have hmain : iaqScore (D.fin r) (D.fin c) (D.fin p) =
      D.fin (min 100 ((r / c) ^ 2 * 100)) := by
    unfold iaqScore
    rw [D.beq_fin]
    simp only [hc0, decide_eq_true_eq, if_neg hc0]
    rw [D.div_fin r c hc0, D.mul_fin, D.mul_fin, fminM_fin]
    rw [min_comm, sq]
    simp
  refine ⟨hmain, ?_, ?_, ?_, rfl⟩
  · intro q hq
    rw [hmain] at hq
    have : q = min 100 ((r / c) ^ 2 * 100) := by
      injection hq with h
      exact h.symm
    rw [this]
    exact min_le_left _ _
  · intro hrc
    rw [hmain, hrc, div_self hc0]
    norm_num
  · unfold iaqScore
    rw [D.beq_fin]
    simp

/-- Witness for C2 at `r = 2`, `c = 2`, `p = 7`. -/
theorem iaq_score_formula_witness :
    iaqScore (D.fin 2) (D.fin 2) (D.fin 7) = D.fin (min 100 ((2 / 2) ^ 2 * 100)) ∧
    (∀ q : ℚ, iaqScore (D.fin 2) (D.fin 2) (D.fin 7) = D.fin q → q ≤ 100) ∧
    ((2 : ℚ) = 2 → iaqScore (D.fin 2) (D.fin 2) (D.fin 7) = D.fin 100) ∧
    iaqScore (D.fin 2) (D.fin 0) (D.fin 7) = D.fin 7 ∧
    (initialState 0).IAQ = D.fin 50 :=
  iaq_score_formula 2 2 7 (by norm_num) (by norm_num)

/-! ### C9 — slope-factor setter performs no validation -/

/-- C9: the slope-factor setter accepts even a wildly out-of-range value
(the source's own TODO says the range should be validated): it stores the
value and reports success instead of rejecting it. -/
theorem slope_factor_accepts_out_of_range :
    (setGasCompensationSlopeFactor (initialState 0) 1000).1 = true ∧
    (setGasCompensationSlopeFactor (initialState 0) 1000).2.iaq_slope_factor = 1000 :=
  ⟨rfl, rfl⟩

/-! ### C10 — Donchian smoothing setter guard -/

/-- C10: disabling or passing a window below 2 leaves the smoothing
configuration unchanged, and once enabled the flag can never be cleared
through this setter. -/
theorem donchian_setter_guard (s : SE_BME680) (enabled : Bool) (periods : ℤ) :
    ((enabled = false ∨ periods < 2) → setDonchianSmoothing s enabled periods = s) ∧
    (s.donchian_enabled = true →
      (setDonchianSmoothing s enabled periods).donchian_enabled = true) := by
  constructor
  · intro h
    unfold setDonchianSmoothing
    rcases h with h | h
    · simp [h]
    · simp [not_le.mpr h]
  · intro h
    unfold setDonchianSmoothing
    split_ifs with hcond
    · exact hcond.1
    · exact h

/-- Witness for C10: an ignored call on a fresh engine, and an attempted
disable on an engine with smoothing already on. -/
theorem donchian_setter_guard_witness :
    setDonchianSmoothing (initialState 0) false 5 = initialState 0 ∧
    (setDonchianSmoothing { initialState 0 with donchian_enabled := true }
      false 1).donchian_enabled = true :=
  ⟨(donchian_setter_guard (initialState 0) false 5).1 (Or.inl rfl),
   (donchian_setter_guard { initialState 0 with donchian_enabled := true } false 1).2 rfl⟩

/-! ### C8 — calibration-timings setter -/

/-- C8 counterexample: the all-under-range combination `(0, 500, 600)` is
rejected with failure instead of being raised to the floors, refuting
"the setter succeeds ... for every combination". -/
theorem timings_setter_rejects_nonpositive :
    setGasCalibrationTimings (initialState 0) 0 500 600 = (false, initialState 0) := by
  unfold setGasCalibrationTimings
  norm_num

/-- C8 (amended): when `0 < initTime ≤ burninTime ≤ decayTime` the setter
succeeds and silently raises under-range values to the floors
`init ≥ 1000`, `burn-in ≥ init + 1000`, `decay ≥ burn-in + 60000`;
any other combination is rejected with failure and no state change. -/
theorem timings_setter_floors (s : SE_BME680) (i b d : ℤ) :
    (0 < i ∧ i ≤ b ∧ b ≤ d →
      (setGasCalibrationTimings s i b d).1 = true ∧
      (setGasCalibrationTimings s i b d).2.gas_calibration_init_time = max 1000 i ∧
      (setGasCalibrationTimings s i b d).2.gas_calibration_burnin_time =
        max (max 1000 i + 1000) b ∧
      (setGasCalibrationTimings s i b d).2.gas_calibration_decay_time =
        max (max (max 1000 i + 1000) b + 60000) d) ∧
    (¬ (0 < i ∧ i ≤ b ∧ b ≤ d) → setGasCalibrationTimings s i b d = (false, s)) := by
  constructor
  · intro h
    unfold setGasCalibrationTimings
    rw [if_pos h]
    refine ⟨rfl, ?_, ?_, ?_⟩ <;> simp only [] <;> split_ifs <;> omega
  · intro h
    unfold setGasCalibrationTimings
    rw [if_neg h]

/-- Witness for C8 at the accepted floor-raised input `(1, 1, 1)` and the
rejected input `(-5, 1, 1)`. -/
theorem timings_setter_floors_witness :
    ((setGasCalibrationTimings (initialState 0) 1 1 1).1 = true ∧
      (setGasCalibrationTimings (initialState 0) 1 1 1).2.gas_calibration_init_time =
        max 1000 1 ∧
      (setGasCalibrationTimings (initialState 0) 1 1 1).2.gas_calibration_burnin_time =
        max (max 1000 1 + 1000) 1 ∧
      (setGasCalibrationTimings (initialState 0) 1 1 1).2.gas_calibration_decay_time =
        max (max (max 1000 1 + 1000) 1 + 60000) 1) ∧
    setGasCalibrationTimings (initialState 0) (-5) 1 1 = (false, initialState 0) :=
  ⟨(timings_setter_floors (initialState 0) 1 1 1).1 (by norm_num),
   (timings_setter_floors (initialState 0) (-5) 1 1).2 (by norm_num)⟩

/-! ### C7 — spurious high gas reading: frame condition -/

/-- C7: when the raw gas resistance exceeds the configured maximum sanity
limit, nothing in the engine changes except that, in stage Init or BurnIn,
the phase timer is pushed forward by the fixed 1000 ms penalty. -/
theorem spurious_reading_frame (e : D → D) (s : SE_BME680) (now : ℕ)
    (temperature humidity : ℚ) (gas_resistance : ℕ)
    (hg : s.gas_resistance_limit_max < gas_resistance) :
    (cycle e s now temperature humidity gas_resistance).gas_calibration_data =
      s.gas_calibration_data ∧
    (cycle e s now temperature humidity gas_resistance).gas_ceiling = s.gas_ceiling ∧
    (cycle e s now temperature humidity gas_resistance).gas_calibration_stage =
      s.gas_calibration_stage ∧
    (cycle e s now temperature humidity gas_resistance).sensor_uptime = s.sensor_uptime ∧
    (cycle e s now temperature humidity gas_resistance).IAQ = s.IAQ ∧
    (cycle e s now temperature humidity gas_resistance).IAQ_accuracy = s.IAQ_accuracy ∧
    (cycle e s now temperature humidity gas_resistance).gas_calibration_range =
      s.gas_calibration_range ∧
    (cycle e s now temperature humidity gas_resistance).gas_calibration_data_index =
      s.gas_calibration_data_index ∧
    (cycle e s now temperature humidity gas_resistance).gas_stage_0_last_low =
      s.gas_stage_0_last_low ∧
    (cycle e s now temperature humidity gas_resistance).gas_stage_0_low_count =
      s.gas_stage_0_low_count ∧
    (cycle e s now temperature humidity gas_resistance).temperature_donchian =
      s.temperature_donchian ∧
    (cycle e s now temperature humidity gas_resistance).humidity_donchian =
      s.humidity_donchian ∧
    (cycle e s now temperature humidity gas_resistance).gas_resistance_donchian =
      s.gas_resistance_donchian ∧
    (cycle e s now temperature humidity gas_resistance).gas_calibration_timer =
      (if s.gas_calibration_stage < 2 then (s.gas_calibration_timer + 1000) % M32
       else s.gas_calibration_timer) := by
  unfold cycle
  rw [if_pos hg]
  split_ifs with h2 <;> exact ⟨rfl, rfl, rfl, rfl, rfl, rfl, rfl, rfl, rfl, rfl, rfl,
    rfl, rfl, rfl⟩

/-- Witness for C7 at a concrete over-limit reading (300 kΩ on the default
225 kΩ limit). -/
theorem spurious_reading_frame_witness :
    (cycle (fun _ => D.nan) (initialState 0) 5 20 50 300000).gas_calibration_data =
      (initialState 0).gas_calibration_data ∧
    (cycle (fun _ => D.nan) (initialState 0) 5 20 50 300000).gas_ceiling =
      (initialState 0).gas_ceiling ∧
    (cycle (fun _ => D.nan) (initialState 0) 5 20 50 300000).gas_calibration_stage =
      (initialState 0).gas_calibration_stage ∧
    (cycle (fun _ => D.nan) (initialState 0) 5 20 50 300000).sensor_uptime =
      (initialState 0).sensor_uptime ∧
    (cycle (fun _ => D.nan) (initialState 0) 5 20 50 300000).IAQ = (initialState 0).IAQ ∧
    (cycle (fun _ => D.nan) (initialState 0) 5 20 50 300000).IAQ_accuracy =
      (initialState 0).IAQ_accuracy ∧
    (cycle (fun _ => D.nan) (initialState 0) 5 20 50 300000).gas_calibration_range =
      (initialState 0).gas_calibration_range ∧
    (cycle (fun _ => D.nan) (initialState 0) 5 20 50 300000).gas_calibration_data_index =
      (initialState 0).gas_calibration_data_index ∧
    (cycle (fun _ => D.nan) (initialState 0) 5 20 50 300000).gas_stage_0_last_low =
      (initialState 0).gas_stage_0_last_low ∧
    (cycle (fun _ => D.nan) (initialState 0) 5 20 50 300000).gas_stage_0_low_count =
      (initialState 0).gas_stage_0_low_count ∧
    (cycle (fun _ => D.nan) (initialState 0) 5 20 50 300000).temperature_donchian =
      (initialState 0).temperature_donchian ∧
    (cycle (fun _ => D.nan) (initialState 0) 5 20 50 300000).humidity_donchian =
      (initialState 0).humidity_donchian ∧
    (cycle (fun _ => D.nan) (initialState 0) 5 20 50 300000).gas_resistance_donchian =
      (initialState 0).gas_resistance_donchian ∧
    (cycle (fun _ => D.nan) (initialState 0) 5 20 50 300000).gas_calibration_timer =
      (if (initialState 0).gas_calibration_stage < 2 then
        ((initialState 0).gas_calibration_timer + 1000) % M32
       else (initialState 0).gas_calibration_timer) :=
  spurious_reading_frame (fun _ => D.nan) (initialState 0) 5 20 50 300000
    (by norm_num [initialState])

/-! ### C3 — calibration-stage monotonicity -/

theorem updateGasCalibration_stage (s : SE_BME680) (v : D) (b : Bool) :
    (updateGasCalibration s v b).gas_calibration_stage = s.gas_calibration_stage := rfl

theorem updateGasCalibration_uptime (s : SE_BME680) (v : D) (b : Bool) :
    (updateGasCalibration s v b).sensor_uptime = s.sensor_uptime := rfl

theorem trackAll_stage (s : SE_BME680) (t h : ℚ) (g : ℕ) :
    (trackAll s t h g).gas_calibration_stage = s.gas_calibration_stage := rfl

theorem trackAll_uptime (s : SE_BME680) (t h : ℚ) (g : ℕ) :
    (trackAll s t h g).sensor_uptime = s.sensor_uptime := rfl

/-- One pass through the stage `switch`: the stage can only stay or advance
by one, and the uptime counter never decreases. -/
theorem calSwitch_stage_mono (s : SE_BME680) (now g : ℕ) (r rmin : D) :
    s.gas_calibration_stage ≤ (calSwitch s now g r rmin).gas_calibration_stage ∧
    (calSwitch s now g r rmin).gas_calibration_stage ≤ s.gas_calibration_stage + 1 ∧
    s.sensor_uptime ≤ (calSwitch s now g r rmin).sensor_uptime := by
  unfold calSwitch
  split
  · rename_i hst
    split_ifs <;> simp [hst] <;> omega
  · rename_i hst
    split_ifs <;>
      simp [hst, updateGasCalibration_stage, updateGasCalibration_uptime] <;> omega
  · rename_i hst
    split_ifs <;>
      simp [hst, updateGasCalibration_stage, updateGasCalibration_uptime] <;> omega
  · rename_i n hst
    simp [hst]

/-- One engine cycle: the stage can only stay or advance by one, and the
uptime counter never decreases. -/
theorem cycle_stage_mono (e : D → D) (s : SE_BME680) (now : ℕ) (t h : ℚ) (g : ℕ) :
    s.gas_calibration_stage ≤ (cycle e s now t h g).gas_calibration_stage ∧
    (cycle e s now t h g).gas_calibration_stage ≤ s.gas_calibration_stage + 1 ∧
    s.sensor_uptime ≤ (cycle e s now t h g).sensor_uptime := by
  unfold cycle
  by_cases h1 : s.gas_resistance_limit_max < g
  · rw [if_pos h1]
    by_cases h2 : s.gas_calibration_stage < 2
    · rw [if_pos h2]
      exact ⟨le_rfl, Nat.le_succ _, le_rfl⟩
    · rw [if_neg h2]
      exact ⟨le_rfl, Nat.le_succ _, le_rfl⟩
  · rw [if_neg h1]
    dsimp only
    by_cases h3 : D.isnan (compValues e s t h g).1 = true ∨
        D.isnan (compValues e s t h g).2 = true
    · rw [if_pos h3]
      refine ⟨le_of_eq (trackAll_stage s t h g).symm, ?_,
        le_of_eq (trackAll_uptime s t h g).symm⟩
      rw [trackAll_stage]
      exact Nat.le_succ _
    · rw [if_neg h3]
      have hm := calSwitch_stage_mono (trackAll s t h g) now g
        (compValues e s t h g).1 (compValues e s t h g).2
      rw [trackAll_stage, trackAll_uptime] at hm
      exact hm

theorem runCycles_append (e : D → D) (s : SE_BME680) (a b : List CycleInput) :
    runCycles e s (a ++ b) = runCycles e (runCycles e s a) b := by
  simp [runCycles, List.foldl_append]

/-- Stage and uptime are monotone along any run. -/
theorem runCycles_stage_mono (e : D → D) (l : List CycleInput) :
    ∀ s : SE_BME680,
      s.gas_calibration_stage ≤ (runCycles e s l).gas_calibration_stage ∧
      s.sensor_uptime ≤ (runCycles e s l).sensor_uptime := by
  induction l with
  | nil => exact fun s => ⟨le_rfl, le_rfl⟩
  | cons x xs ih =>
      intro s
      have hstep := cycle_stage_mono e s x.now x.temperature x.humidity x.gas_resistance
      have htail := ih (cycle e s x.now x.temperature x.humidity x.gas_resistance)
      exact ⟨le_trans hstep.1 htail.1, le_trans hstep.2.2 htail.2⟩

/-- C3: for every run with a monotonically increasing clock, the calibration
stage after `i` cycles never exceeds the stage after `j ≥ i` cycles (the
stage never regresses), each cycle advances the stage by at most one (so the
order Init → BurnIn → Normal is respected, never skipped or reversed), and
the sensor-uptime counter never decreases — in particular it never resets
while the stage stays at Normal. -/
theorem calibration_stage_monotone (e : D → D) (s0 : SE_BME680)
    (inps : List CycleInput)
    (hclock : List.Pairwise (fun a b => a.now ≤ b.now) inps) (i j : ℕ) (hij : i ≤ j) :
    (runCycles e s0 (inps.take i)).gas_calibration_stage ≤
      (runCycles e s0 (inps.take j)).gas_calibration_stage ∧
    (runCycles e s0 (inps.take (i + 1))).gas_calibration_stage ≤
      (runCycles e s0 (inps.take i)).gas_calibration_stage + 1 ∧
    (runCycles e s0 (inps.take i)).sensor_uptime ≤
      (runCycles e s0 (inps.take j)).sensor_uptime := by
  have hdecomp : inps.take j = inps.take i ++ (inps.take j).drop i := by
    have h2 : (inps.take j).take i = inps.take i := by
      rw [List.take_take, min_eq_left hij]
    conv_lhs => rw [← List.take_append_drop i (inps.take j)]
    rw [h2]
  have hmono := runCycles_stage_mono e ((inps.take j).drop i) (runCycles e s0 (inps.take i))
  refine ⟨?_, ?_, ?_⟩
  · rw [hdecomp, runCycles_append]
    exact hmono.1
  · rw [List.take_succ]
    cases hx : inps[i]? with
    | none => simp
    | some x =>
        rw [runCycles_append]
        exact (cycle_stage_mono e (runCycles e s0 (inps.take i))
          x.now x.temperature x.humidity x.gas_resistance).2.1
  · rw [hdecomp, runCycles_append]
    exact hmono.2

/-- Witness for C3 on a concrete one-cycle run with a monotone clock. -/
theorem calibration_stage_monotone_witness :
    (runCycles (fun _ => D.pinf) (initialState 0)
        (([⟨0, 20, 50, 1000⟩] : List CycleInput).take 0)).gas_calibration_stage ≤
      (runCycles (fun _ => D.pinf) (initialState 0)
        (([⟨0, 20, 50, 1000⟩] : List CycleInput).take 1)).gas_calibration_stage ∧
    (runCycles (fun _ => D.pinf) (initialState 0)
        (([⟨0, 20, 50, 1000⟩] : List CycleInput).take (0 + 1))).gas_calibration_stage ≤
      (runCycles (fun _ => D.pinf) (initialState 0)
        (([⟨0, 20, 50, 1000⟩] : List CycleInput).take 0)).gas_calibration_stage + 1 ∧
    (runCycles (fun _ => D.pinf) (initialState 0)
        (([⟨0, 20, 50, 1000⟩] : List CycleInput).take 0)).sensor_uptime ≤
      (runCycles (fun _ => D.pinf) (initialState 0)
        (([⟨0, 20, 50, 1000⟩] : List CycleInput).take 1)).sensor_uptime :=
  calibration_stage_monotone (fun _ => D.pinf) (initialState 0)
    [⟨0, 20, 50, 1000⟩] (by simp) 0 1 (by norm_num)

/-! ### C1 — NaN guard: what is and is not discarded -/

/-- C1 (amended): when either compensated value is NaN (the only condition
the `isnan` guard tests), the cycle's contribution to calibration is
discarded: buffer, ceiling, range, stage, timer, uptime, trend trackers,
IAQ score and accuracy grade all keep their prior values.  The Donchian
trackers, however, have already ingested the cycle's raw samples before the
guard runs, so they hold the post-`track` state, not the prior one. -/
theorem nan_cycle_discard (e : D → D) (s : SE_BME680) (now : ℕ) (t h : ℚ) (g : ℕ)
    (hg : ¬ s.gas_resistance_limit_max < g)
    (hnan : D.isnan (compValues e s t h g).1 = true ∨
      D.isnan (compValues e s t h g).2 = true) :
    (cycle e s now t h g).gas_calibration_data = s.gas_calibration_data ∧
    (cycle e s now t h g).gas_ceiling = s.gas_ceiling ∧
    (cycle e s now t h g).gas_calibration_range = s.gas_calibration_range ∧
    (cycle e s now t h g).gas_calibration_data_index = s.gas_calibration_data_index ∧
    (cycle e s now t h g).gas_calibration_stage = s.gas_calibration_stage ∧
    (cycle e s now t h g).gas_calibration_timer = s.gas_calibration_timer ∧
    (cycle e s now t h g).gas_stage_0_last_low = s.gas_stage_0_last_low ∧
    (cycle e s now t h g).gas_stage_0_low_count = s.gas_stage_0_low_count ∧
    (cycle e s now t h g).sensor_uptime = s.sensor_uptime ∧
    (cycle e s now t h g).IAQ = s.IAQ ∧
    (cycle e s now t h g).IAQ_accuracy = s.IAQ_accuracy ∧
    (cycle e s now t h g).temperature_donchian = (trackAll s t h g).temperature_donchian ∧
    (cycle e s now t h g).humidity_donchian = (trackAll s t h g).humidity_donchian ∧
    (cycle e s now t h g).gas_resistance_donchian =
      (trackAll s t h g).gas_resistance_donchian := by
  unfold cycle
  rw [if_neg hg]
  dsimp only
  rw [if_pos hnan]
  exact ⟨rfl, rfl, rfl, rfl, rfl, rfl, rfl, rfl, rfl, rfl, rfl, rfl, rfl, rfl⟩

/-- The stage `switch` at BurnIn when the burn-in window is still open (or
the buffer not yet full) reduces to a replace-smallest buffer update. -/
theorem calSwitch_stage1 (s : SE_BME680) (now g : ℕ) (r rmin : D)
    (hst : s.gas_calibration_stage = 1)
    (hcond : ulSub now s.gas_calibration_timer <
        u32ofInt s.gas_calibration_burnin_time ∨
      D.beq (s.gas_calibration_data.getD (GAS_CALIBRATION_DATA_POINTS - 1) D.nan)
        (D.fin 0) = true) :
    calSwitch s now g r rmin = updateGasCalibration s (fmaxM r rmin) true := by
  unfold calSwitch
  split
  · rename_i h0; omega
  · rw [if_pos hcond]
  · rename_i h2; omega
  · rename_i n h3; omega

/-- The buffer contents after `updateGasCalibration`, separated from the
derived-statistics update. -/
theorem updateGasCalibration_data (s : SE_BME680) (v : D) (b : Bool) :
    (updateGasCalibration s v b).gas_calibration_data =
      (if b = true ∧ D.lt (D.fin 0)
          (s.gas_calibration_data.getD (GAS_CALIBRATION_DATA_POINTS - 1) D.nan) = true
       then
        (if D.lt (smallestOf s.gas_calibration_data).1 v then
          s.gas_calibration_data.set (smallestOf s.gas_calibration_data).2 v
         else s.gas_calibration_data)
       else s.gas_calibration_data.set s.gas_calibration_data_index v) := by
  unfold updateGasCalibration
  dsimp only
  split_ifs <;> rfl

/-- C1 counterexample: at 25 °C, 40 %RH, 100 kΩ with an overflowing `exp`,
the compensated gas resistance is `+inf` — not finite — yet the cycle is
NOT discarded: the guard (which only tests `isnan`) passes, the calibration
buffer's first slot changes from 0 to `+inf`, and the Donchian trackers
have changed as well.  This refutes both "not finite (NaN or Inf) implies
discard" and "all engine state is left unchanged". -/
theorem inf_cycle_not_discarded :
    D.isFinite (compValues cxExp cxState 25 40 100000).1 = false ∧
    D.isnan (compValues cxExp cxState 25 40 100000).1 = false ∧
    (cycle cxExp cxState 0 25 40 100000).gas_calibration_data.getD 0 D.nan = D.pinf ∧
    cxState.gas_calibration_data.getD 0 D.nan = D.fin 0 ∧
    (cycle cxExp cxState 0 25 40 100000).temperature_donchian.average = 25 ∧
    cxState.temperature_donchian.average = 0 := by
  have htn : Int.toNat 100000 = 100000 := rfl
  have hsv : smoothedVals cxState 25 40 100000 = (25, 40, 100000) := by
    norm_num [smoothedVals, smoothingActive, cxState, initialState, track,
      mkDonchianAverage, walkLoop, round_eq, htn]
  have hcv : compValues cxExp cxState 25 40 100000 = (D.pinf, D.pinf) := by
    rw [compValues, hsv]
    norm_num [cxExp, cxState, initialState, D.mul, D.div, D.add, HMul.hMul, Mul.mul,
      HDiv.hDiv, Div.div, HAdd.hAdd, Add.add]
  have hget0 : cxState.gas_calibration_data.getD 0 D.nan = D.fin 0 := rfl
  have hcond : ulSub 0 (trackAll cxState 25 40 100000).gas_calibration_timer <
      u32ofInt (trackAll cxState 25 40 100000).gas_calibration_burnin_time ∨
      D.beq ((trackAll cxState 25 40 100000).gas_calibration_data.getD
        (GAS_CALIBRATION_DATA_POINTS - 1) D.nan) (D.fin 0) = true := by
    left
    have h1 : ulSub 0 (trackAll cxState 25 40 100000).gas_calibration_timer = 0 := rfl
    have h2 : u32ofInt (trackAll cxState 25 40 100000).gas_calibration_burnin_time =
        300000 := rfl
    rw [h1, h2]
    norm_num
  refine ⟨by rw [hcv]; rfl, by rw [hcv]; rfl, ?_, hget0, ?_, rfl⟩
  · unfold cycle
    rw [if_neg (by norm_num [cxState, initialState])]
    dsimp only
    rw [hcv]
    rw [if_neg (by simp [D.isnan])]
    show (calSwitch (trackAll cxState 25 40 100000) 0 100000 D.pinf
      D.pinf).gas_calibration_data.getD 0 D.nan = D.pinf
    rw [calSwitch_stage1 _ _ _ _ _ rfl hcond]
    rw [updateGasCalibration_data]
    have hfull : D.lt (D.fin 0)
        ((trackAll cxState 25 40 100000).gas_calibration_data.getD
          (GAS_CALIBRATION_DATA_POINTS - 1) D.nan) = false := by
      have h3 : (trackAll cxState 25 40 100000).gas_calibration_data.getD
          (GAS_CALIBRATION_DATA_POINTS - 1) D.nan = D.fin 0 := rfl
      rw [h3, D.lt_fin]
      norm_num
    rw [if_neg (by rw [hfull]; simp)]
    rfl
  · unfold cycle
    rw [if_neg (by norm_num [cxState, initialState])]
    dsimp only
    rw [hcv]
    rw [if_neg (by simp [D.isnan])]
    show (calSwitch (trackAll cxState 25 40 100000) 0 100000 D.pinf
      D.pinf).temperature_donchian.average = 25
    rw [calSwitch_stage1 _ _ _ _ _ rfl hcond]
    rw [updateGasCalibration_trackers]
    show (track cxState.temperature_donchian 25).average = 25
    norm_num [cxState, track, mkDonchianAverage, walkLoop]

/-- Witness for C1 (amended) at a concrete NaN-producing cycle: a zero gas
reading under an overflowing `exp` makes `0 · ∞ = NaN`. -/
theorem nan_cycle_discard_witness :
    (cycle cxExp (initialState 0) 7 25 40 0).gas_calibration_data =
      (initialState 0).gas_calibration_data ∧
    (cycle cxExp (initialState 0) 7 25 40 0).gas_ceiling = (initialState 0).gas_ceiling ∧
    (cycle cxExp (initialState 0) 7 25 40 0).gas_calibration_range =
      (initialState 0).gas_calibration_range ∧
    (cycle cxExp (initialState 0) 7 25 40 0).gas_calibration_data_index =
      (initialState 0).gas_calibration_data_index ∧
    (cycle cxExp (initialState 0) 7 25 40 0).gas_calibration_stage =
      (initialState 0).gas_calibration_stage ∧
    (cycle cxExp (initialState 0) 7 25 40 0).gas_calibration_timer =
      (initialState 0).gas_calibration_timer ∧
    (cycle cxExp (initialState 0) 7 25 40 0).gas_stage_0_last_low =
      (initialState 0).gas_stage_0_last_low ∧
    (cycle cxExp (initialState 0) 7 25 40 0).gas_stage_0_low_count =
      (initialState 0).gas_stage_0_low_count ∧
    (cycle cxExp (initialState 0) 7 25 40 0).sensor_uptime =
      (initialState 0).sensor_uptime ∧
    (cycle cxExp (initialState 0) 7 25 40 0).IAQ = (initialState 0).IAQ ∧
    (cycle cxExp (initialState 0) 7 25 40 0).IAQ_accuracy =
      (initialState 0).IAQ_accuracy ∧
    (cycle cxExp (initialState 0) 7 25 40 0).temperature_donchian =
      (trackAll (initialState 0) 25 40 0).temperature_donchian ∧
    (cycle cxExp (initialState 0) 7 25 40 0).humidity_donchian =
      (trackAll (initialState 0) 25 40 0).humidity_donchian ∧
    (cycle cxExp (initialState 0) 7 25 40 0).gas_resistance_donchian =
      (trackAll (initialState 0) 25 40 0).gas_resistance_donchian :=
  nan_cycle_discard cxExp (initialState 0) 7 25 40 0
    (by norm_num [initialState])
    (by
      have h : compValues cxExp (initialState 0) 25 40 0 = (D.nan, D.pinf) := by
        norm_num [compValues, smoothedVals, smoothingActive, initialState, cxExp,
          D.mul, D.div, D.add, HMul.hMul, Mul.mul, HDiv.hDiv, Div.div,
          HAdd.hAdd, Add.add]
      rw [h]
      left
      rfl)

/-! ### C4, C5 — Calibration Buffer -/

theorem le_foldl_max (l : List ℚ) : ∀ b : ℚ, b ≤ List.foldl Max.max b l := by
  induction l with
  | nil => intro b; exact le_rfl
  | cons x xs ih => intro b; exact le_trans (le_max_left b x) (ih (max b x))

theorem foldl_min_pos (l : List ℚ) : ∀ b : ℚ, 0 < b → (∀ y ∈ l, 0 < y) →
    0 < List.foldl Min.min b l := by
  induction l with
  | nil => intro b hb _; exact hb
  | cons x xs ih =>
      intro b hb hl
      exact ih (min b x) (lt_min hb (hl x (by simp)))
        (fun y hy => hl y (by simp [hy]))

/-- The statistics loop over a populated, all-positive buffer: starting from
a running accumulator with positive min/max, it adds every element to the
sum, folds min/max, and counts every slot. -/
theorem calScanAux_fin_pos (l : List ℚ) :
    ∀ (a m M : ℚ) (c : ℕ), (∀ y ∈ l, 0 < y) → 0 < m → 0 < M →
      calScanAux (l.map D.fin) (D.fin a) (D.fin m) (D.fin M) c =
        (D.fin (a + l.sum), D.fin (List.foldl Min.min m l),
         D.fin (List.foldl Max.max M l), c + l.length) := by
  induction l with
  | nil => intro a m M c _ _ _; simp [calScanAux]
  | cons x xs ih =>
      intro a m M c hpos hm hM
      have hx : 0 < x := hpos x (by simp)
      have hlt : D.lt (D.fin 0) (D.fin x) = true := by
        rw [D.lt_fin]; exact decide_eq_true hx
      have hbm : D.beq (D.fin m) (D.fin 0) = false := by
        rw [D.beq_fin]; exact decide_eq_false (ne_of_gt hm)
      have hbM : D.beq (D.fin M) (D.fin 0) = false := by
        rw [D.beq_fin]; exact decide_eq_false (ne_of_gt hM)
      rw [List.map_cons]
      simp only [calScanAux, hlt, if_true, hbm, hbM, Bool.false_eq_true, if_false,
        D.add_fin, fminM_fin, fmaxM_fin]
      rw [ih (a + x) (min m x) (max M x) (c + 1)
        (fun y hy => hpos y (by simp [hy])) (lt_min hm hx)
        (lt_of_lt_of_le hM (le_max_left M x))]
      simp only [List.sum_cons, List.length_cons, List.foldl_cons, Prod.mk.injEq]
      exact ⟨by rw [add_assoc], trivial, trivial, by omega⟩

/-- `calScan` of a populated all-positive buffer: total sum, fold-min,
fold-max, full count. -/
theorem calScan_fin_pos (q : ℚ) (rest : List ℚ) (hq : 0 < q)
    (hpos : ∀ y ∈ rest, 0 < y) :
    calScan ((q :: rest).map D.fin) =
      (D.fin ((q :: rest).sum), D.fin (List.foldl Min.min q rest),
       D.fin (List.foldl Max.max q rest), (q :: rest).length) := by
  unfold calScan
  rw [List.map_cons]
  have hlt : D.lt (D.fin 0) (D.fin q) = true := by
    rw [D.lt_fin]; exact decide_eq_true hq
  have hb : D.beq (D.fin 0) (D.fin 0) = true := by rw [D.beq_fin]; simp
  simp only [calScanAux, hlt, hb, if_true, D.add_fin]
  rw [calScanAux_fin_pos rest (0 + q) q q 1 hpos hq hq]
  simp only [List.sum_cons, List.length_cons, Prod.mk.injEq]
  exact ⟨by rw [zero_add], trivial, trivial, by omega⟩

/-- The smallest-slot scan over a populated all-positive buffer computes the
fold-minimum of the stored values. -/
theorem smallestScan_val (l : List ℚ) :
    ∀ (b : ℚ) (si i : ℕ), (smallestScan (l.map D.fin) (D.fin b) si i).1 =
      D.fin (List.foldl Min.min b l) := by
  induction l with
  | nil => intro b si i; rfl
  | cons x xs ih =>
      intro b si i
      rw [List.map_cons]
      by_cases h : x < b
      · have hlt : D.lt (D.fin x) (D.fin b) = true := by
          rw [D.lt_fin]; exact decide_eq_true h
        simp only [smallestScan, hlt, if_true]
        rw [ih x i (i + 1), List.foldl_cons, min_eq_right h.le]
      · have hlt : D.lt (D.fin x) (D.fin b) = false := by
          rw [D.lt_fin]; exact decide_eq_false h
        simp only [smallestScan, hlt, Bool.false_eq_true, if_false]
        rw [ih b si (i + 1), List.foldl_cons, min_eq_left (not_lt.mp h)]

/-- Invariant of the smallest-slot scan: if the carried index points at the
carried value in the underlying buffer `L`, and the remaining list is the
tail of `L` from position `i`, then the returned index points at the
returned value. -/
theorem smallestScan_getD (L : List D) (l : List D) :
    ∀ (sv : D) (si i : ℕ), L.drop i = l → L.getD si D.nan = sv →
      L.getD (smallestScan l sv si i).2 D.nan = (smallestScan l sv si i).1 := by
  induction l with
  | nil => intro sv si i _ h; simpa [smallestScan] using h
  | cons d rest ih =>
      intro sv si i hdrop hsi
      have hd : L.getD i D.nan = d := by
        have h0 : L[i]? = some d := by
          have := List.getElem?_drop L i 0
          rw [hdrop] at this
          simpa using this.symm
        rw [List.getD_eq_getElem?_getD, h0]
        rfl
      have hrest : L.drop (i + 1) = rest := by
        have := congrArg List.tail hdrop
        rw [List.tail_drop] at this
        simpa using this
      by_cases h : D.lt d sv = true
      · simp only [smallestScan, h, if_true]
        exact ih d i (i + 1) hrest hd
      · simp only [smallestScan, h, Bool.false_eq_true, if_false]
        exact ih sv si (i + 1) hrest hsi

/-- The smallest slot of a populated all-positive buffer: its value is the
fold-minimum, and its index points at a slot holding exactly that value. -/
theorem smallestOf_fin (q : ℚ) (rest : List ℚ) :
    (smallestOf ((q :: rest).map D.fin)).1 = D.fin (List.foldl Min.min q rest) ∧
    ((q :: rest).map D.fin).getD (smallestOf ((q :: rest).map D.fin)).2 D.nan =
      D.fin (List.foldl Min.min q rest) := by
  have h1 : (smallestOf ((q :: rest).map D.fin)).1 =
      D.fin (List.foldl Min.min q rest) := by
    show (smallestScan (rest.map D.fin) (D.fin q) 0 1).1 = _
    exact smallestScan_val rest q 0 1
  refine ⟨h1, ?_⟩
  have h2 := smallestScan_getD ((q :: rest).map D.fin) (rest.map D.fin)
    (D.fin q) 0 1 (by simp) (by simp)
  rw [← h1]
  exact h2

theorem updateGasCalibration_index (s : SE_BME680) (v : D) (b : Bool) :
    (updateGasCalibration s v b).gas_calibration_data_index =
      (if b = true ∧ D.lt (D.fin 0)
          (s.gas_calibration_data.getD (GAS_CALIBRATION_DATA_POINTS - 1) D.nan) = true
       then s.gas_calibration_data_index
       else if GAS_CALIBRATION_DATA_POINTS ≤ s.gas_calibration_data_index + 1 then 0
         else s.gas_calibration_data_index + 1) := by
  unfold updateGasCalibration
  dsimp only
  split_ifs <;> rfl

theorem updateGasCalibration_range (s : SE_BME680) (v : D) (b : Bool) :
    (updateGasCalibration s v b).gas_calibration_range =
      (if (calScan ((updateGasCalibration s v b).gas_calibration_data)).2.2.2 ≠ 0 ∧
          D.lt (D.fin 0)
            (calScan ((updateGasCalibration s v b).gas_calibration_data)).2.2.1 = true
       then ((calScan ((updateGasCalibration s v b).gas_calibration_data)).2.2.1 -
          (calScan ((updateGasCalibration s v b).gas_calibration_data)).2.1) /
          (calScan ((updateGasCalibration s v b).gas_calibration_data)).2.2.1
       else s.gas_calibration_range) := by
  rw [updateGasCalibration_data]
  unfold updateGasCalibration
  dsimp only
  split_ifs <;> rfl

theorem updateGasCalibration_ceiling (s : SE_BME680) (v : D) (b : Bool) :
    (updateGasCalibration s v b).gas_ceiling =
      (if (calScan ((updateGasCalibration s v b).gas_calibration_data)).2.2.2 ≠ 0 ∧
          D.isnan ((calScan ((updateGasCalibration s v b).gas_calibration_data)).1 /
            D.fin ((calScan ((updateGasCalibration s v b).gas_calibration_data)).2.2.2 : ℚ))
            = false
       then (calScan ((updateGasCalibration s v b).gas_calibration_data)).1 /
          D.fin ((calScan ((updateGasCalibration s v b).gas_calibration_data)).2.2.2 : ℚ)
       else s.gas_ceiling) := by
  rw [updateGasCalibration_data]
  unfold updateGasCalibration
  dsimp only
  split_ifs <;> rfl

/-- C5: on a fully populated (all-positive) calibration buffer whose derived
ceiling and range match its contents, a `replaceSmallest` update with a
value at most the current minimum changes nothing at all (idempotent no-op),
while a value above the minimum overwrites exactly the slot holding the
minimum (and nothing else: the write cursor is untouched). -/
theorem replace_smallest_policy (s : SE_BME680) (q v : ℚ) (rest : List ℚ)
    (hdata : s.gas_calibration_data = (q :: rest).map D.fin)
    (hlen : (q :: rest).length = GAS_CALIBRATION_DATA_POINTS)
    (hq : 0 < q) (hpos : ∀ y ∈ rest, 0 < y)
    (hceil : s.gas_ceiling = D.fin ((q :: rest).sum / 100))
    (hrange : s.gas_calibration_range =
      D.fin ((List.foldl Max.max q rest - List.foldl Min.min q rest) /
        List.foldl Max.max q rest)) :
    (v ≤ List.foldl Min.min q rest → updateGasCalibration s (D.fin v) true = s) ∧
    (List.foldl Min.min q rest < v →
      (updateGasCalibration s (D.fin v) true).gas_calibration_data =
        s.gas_calibration_data.set (smallestOf s.gas_calibration_data).2 (D.fin v) ∧
      s.gas_calibration_data.getD (smallestOf s.gas_calibration_data).2 D.nan =
        D.fin (List.foldl Min.min q rest) ∧
      (updateGasCalibration s (D.fin v) true).gas_calibration_data_index =
        s.gas_calibration_data_index) := by
  have hlen' : GAS_CALIBRATION_DATA_POINTS - 1 < (q :: rest).length := by
    rw [hlen]; norm_num [GAS_CALIBRATION_DATA_POINTS]
  have hposel : 0 < (q :: rest)[GAS_CALIBRATION_DATA_POINTS - 1] := by
    rcases List.mem_cons.mp (List.getElem_mem hlen') with h | h
    · rw [h]; exact hq
    · exact hpos _ h
  have hfull : D.lt (D.fin 0)
      (s.gas_calibration_data.getD (GAS_CALIBRATION_DATA_POINTS - 1) D.nan) = true := by
    rw [hdata, List.getD_eq_getElem?_getD, List.getElem?_map,
      List.getElem?_eq_getElem hlen']
    simp only [Option.map_some', Option.getD_some]
    rw [D.lt_fin]
    exact decide_eq_true hposel
  have hsv1 := (smallestOf_fin q rest).1
  have hMpos : 0 < List.foldl Max.max q rest := lt_of_lt_of_le hq (le_foldl_max rest q)
  have hidx : (updateGasCalibration s (D.fin v) true).gas_calibration_data_index =
      s.gas_calibration_data_index := by
    rw [updateGasCalibration_index, if_pos ⟨rfl, hfull⟩]
  constructor
  · intro hvm
    have hnolt : ¬ D.lt (smallestOf s.gas_calibration_data).1 (D.fin v) = true := by
      rw [hdata, hsv1, D.lt_fin]
      simp only [decide_eq_true_eq]
      exact not_lt.mpr hvm
    have hdeq : (updateGasCalibration s (D.fin v) true).gas_calibration_data =
        s.gas_calibration_data := by
      rw [updateGasCalibration_data, if_pos ⟨rfl, hfull⟩, if_neg hnolt]
    have hscan : calScan ((updateGasCalibration s (D.fin v) true).gas_calibration_data) =
        (D.fin ((q :: rest).sum), D.fin (List.foldl Min.min q rest),
         D.fin (List.foldl Max.max q rest), (q :: rest).length) := by
      rw [hdeq, hdata, calScan_fin_pos q rest hq hpos]
    have hrange_eq : (updateGasCalibration s (D.fin v) true).gas_calibration_range =
        s.gas_calibration_range := by
      rw [updateGasCalibration_range, hscan]
      dsimp only
      rw [if_pos ⟨by rw [hlen]; norm_num [GAS_CALIBRATION_DATA_POINTS],
        by rw [D.lt_fin]; exact decide_eq_true hMpos⟩]
      rw [D.sub_fin, D.div_fin _ _ (ne_of_gt hMpos), hrange]
    have hceil_eq : (updateGasCalibration s (D.fin v) true).gas_ceiling =
        s.gas_ceiling := by
      rw [updateGasCalibration_ceiling, hscan]
      dsimp only
      rw [hlen]
      have hc : ((GAS_CALIBRATION_DATA_POINTS : ℕ) : ℚ) = 100 := by
        norm_num [GAS_CALIBRATION_DATA_POINTS]
      rw [hc, D.div_fin _ _ (by norm_num), D.isnan_fin]
      rw [if_pos ⟨by norm_num [GAS_CALIBRATION_DATA_POINTS], rfl⟩]
      rw [hceil]
    have hshape : updateGasCalibration s (D.fin v) true =
        { s with
          gas_calibration_data :=
            (updateGasCalibration s (D.fin v) true).gas_calibration_data
          gas_calibration_data_index :=
            (updateGasCalibration s (D.fin v) true).gas_calibration_data_index
          gas_calibration_range :=
            (updateGasCalibration s (D.fin v) true).gas_calibration_range
          gas_ceiling := (updateGasCalibration s (D.fin v) true).gas_ceiling } := rfl
    rw [hshape, hdeq, hidx, hrange_eq, hceil_eq]
  · intro hmv
    have hlt : D.lt (smallestOf s.gas_calibration_data).1 (D.fin v) = true := by
      rw [hdata, hsv1, D.lt_fin]
      exact decide_eq_true hmv
    refine ⟨?_, ?_, hidx⟩
    · rw [updateGasCalibration_data, if_pos ⟨rfl, hfull⟩, if_pos hlt]
    · rw [hdata]
      exact (smallestOf_fin q rest).2

theorem foldl_min_replicate_self (n : ℕ) (b : ℚ) :
    List.foldl Min.min b (List.replicate n b) = b := by
  induction n with
  | zero => rfl
  | succ m ih => rw [List.replicate_succ, List.foldl_cons, min_self]; exact ih

/-- Witness for C5 on the all-ones buffer: inserting 1/2 (below the minimum)
is a no-op, and inserting 2 (above it) overwrites the minimum slot. -/
theorem replace_smallest_policy_witness :
    updateGasCalibration c5State (D.fin (1 / 2)) true = c5State ∧
    ((updateGasCalibration c5State (D.fin 2) true).gas_calibration_data =
      c5State.gas_calibration_data.set
        (smallestOf c5State.gas_calibration_data).2 (D.fin 2) ∧
    c5State.gas_calibration_data.getD
        (smallestOf c5State.gas_calibration_data).2 D.nan =
      D.fin (List.foldl Min.min 1 (List.replicate 99 (1 : ℚ))) ∧
    (updateGasCalibration c5State (D.fin 2) true).gas_calibration_data_index =
      c5State.gas_calibration_data_index) :=
  ⟨(replace_smallest_policy c5State 1 (1 / 2) (List.replicate 99 1) rfl
      (by simp [GAS_CALIBRATION_DATA_POINTS]) (by norm_num)
      (fun y hy => by rw [List.eq_of_mem_replicate hy]; norm_num) rfl rfl).1
    (by rw [foldl_min_replicate_self]; norm_num),
   (replace_smallest_policy c5State 1 2 (List.replicate 99 1) rfl
      (by simp [GAS_CALIBRATION_DATA_POINTS]) (by norm_num)
      (fun y hy => by rw [List.eq_of_mem_replicate hy]; norm_num) rfl rfl).2
    (by rw [foldl_min_replicate_self]; norm_num)⟩

theorem set_append_length (A B : List D) (x : D) :
    (A ++ B).set A.length x = A ++ B.set 0 x := by
  induction A with
  | nil => simp
  | cons a as ih => simp [List.set, ih]

/-- Filling the buffer with plain rotation: starting from a prefix `A` of
`n` written slots followed by zero (unpopulated) slots, inserting `vs`
writes them in order after `A` and advances the cursor accordingly. -/
theorem insertAll_fill (vs : List ℚ) :
    ∀ (s : SE_BME680) (A : List D) (n : ℕ),
      s.gas_calibration_data =
        A ++ List.replicate (GAS_CALIBRATION_DATA_POINTS - n) (D.fin 0) →
      A.length = n →
      s.gas_calibration_data_index = n % GAS_CALIBRATION_DATA_POINTS →
      n + vs.length ≤ GAS_CALIBRATION_DATA_POINTS →
      (insertAll s vs).gas_calibration_data =
        A ++ vs.map D.fin ++
          List.replicate (GAS_CALIBRATION_DATA_POINTS - n - vs.length) (D.fin 0) ∧
      (insertAll s vs).gas_calibration_data_index =
        (n + vs.length) % GAS_CALIBRATION_DATA_POINTS := by
  induction vs with
  | nil =>
      intro s A n hdata hA hidx hle
      simp only [insertAll, List.foldl_nil, List.map_nil, List.append_nil,
        List.length_nil, Nat.add_zero, Nat.sub_zero]
      exact ⟨hdata, hidx⟩
  | cons x xs ih =>
      intro s A n hdata hA hidx hle
      have hn : n < GAS_CALIBRATION_DATA_POINTS := by
        have := hle
        simp only [List.length_cons] at this
        omega
      have hidx' : s.gas_calibration_data_index = n := by
        rw [hidx, Nat.mod_eq_of_lt hn]
      have hrep : GAS_CALIBRATION_DATA_POINTS - n =
          (GAS_CALIBRATION_DATA_POINTS - n - 1) + 1 := by omega
      have hdata2 : (updateGasCalibration s (D.fin x) false).gas_calibration_data =
          (A ++ [D.fin x]) ++
            List.replicate (GAS_CALIBRATION_DATA_POINTS - (A.length + 1)) (D.fin 0) := by
        rw [updateGasCalibration_data, if_neg (by simp), hidx', hdata, hrep,
          List.replicate_succ, ← hA, set_append_length]
        simp only [List.set]
        have hcnt : GAS_CALIBRATION_DATA_POINTS - A.length - 1 =
            GAS_CALIBRATION_DATA_POINTS - (A.length + 1) := by omega
        rw [hcnt, List.append_cons]
      have hidx2 : (updateGasCalibration s (D.fin x) false).gas_calibration_data_index =
          (n + 1) % GAS_CALIBRATION_DATA_POINTS := by
        rw [updateGasCalibration_index, if_neg (by simp), hidx']
        split_ifs with h
        · have h2 : n + 1 = GAS_CALIBRATION_DATA_POINTS := by omega
          rw [h2, Nat.mod_self]
        · rw [Nat.mod_eq_of_lt (by omega)]
      rw [hA] at hdata2
      have hrec := ih (updateGasCalibration s (D.fin x) false) (A ++ [D.fin x]) (n + 1)
        hdata2 (by simp [hA]) hidx2 (by simp only [List.length_cons] at hle; omega)
      refine ⟨?_, ?_⟩
      · show (insertAll (updateGasCalibration s (D.fin x) false)
            xs).gas_calibration_data = _
        rw [hrec.1, List.map_cons, List.append_cons A (D.fin x) (xs.map D.fin)]
        have hc : GAS_CALIBRATION_DATA_POINTS - (n + 1) - xs.length =
            GAS_CALIBRATION_DATA_POINTS - n - (x :: xs).length := by
          simp only [List.length_cons]; omega
        rw [hc]
      · show (insertAll (updateGasCalibration s (D.fin x) false)
            xs).gas_calibration_data_index = _
        rw [hrec.2]
        have hc : n + 1 + xs.length = n + (x :: xs).length := by
          simp only [List.length_cons]; omega
        rw [hc]

/-- C4: inserting exactly `C = 100` positive values into the freshly
initialized (empty) buffer with plain rotation makes the gas ceiling the
arithmetic mean of the values and the calibration range `(max − min)/max`
over them; before any insertion the range (spread) is 1. -/
theorem buffer_fill_mean_range (q : ℚ) (rest : List ℚ) (t0 : ℕ)
    (hlen : (q :: rest).length = GAS_CALIBRATION_DATA_POINTS)
    (hpos : ∀ y ∈ q :: rest, 0 < y) :
    (insertAll (initialState t0) (q :: rest)).gas_ceiling =
      D.fin ((q :: rest).sum / 100) ∧
    (insertAll (initialState t0) (q :: rest)).gas_calibration_range =
      D.fin ((List.foldl Max.max q rest - List.foldl Min.min q rest) /
        List.foldl Max.max q rest) ∧
    (initialState t0).gas_calibration_range = D.fin 1 := by
  have hq : 0 < q := hpos q (by simp)
  have hrestpos : ∀ y ∈ rest, 0 < y := fun y hy => hpos y (by simp [hy])
  have hfill := insertAll_fill (q :: rest) (initialState t0) [] 0
    (by simp [initialState]) rfl (by simp [initialState]) (by rw [hlen]; omega)
  have hfin : (insertAll (initialState t0) (q :: rest)).gas_calibration_data =
      (q :: rest).map D.fin := by
    rw [hfill.1]
    have h0 : GAS_CALIBRATION_DATA_POINTS - 0 - (q :: rest).length = 0 := by
      rw [hlen]; omega
    rw [h0]
    simp
  rcases List.eq_nil_or_concat (q :: rest) with h | ⟨ws, w, hws⟩
  · exact absurd h (by simp)
  · have heq : insertAll (initialState t0) (q :: rest) =
        updateGasCalibration (insertAll (initialState t0) ws) (D.fin w) false := by
      rw [hws]
      simp [insertAll, List.concat_eq_append, List.foldl_append]
    have hscan : calScan ((updateGasCalibration (insertAll (initialState t0) ws)
        (D.fin w) false).gas_calibration_data) =
        (D.fin ((q :: rest).sum), D.fin (List.foldl Min.min q rest),
         D.fin (List.foldl Max.max q rest), (q :: rest).length) := by
      rw [← heq, hfin, calScan_fin_pos q rest hq hrestpos]
    have hMpos : 0 < List.foldl Max.max q rest :=
      lt_of_lt_of_le hq (le_foldl_max rest q)
    refine ⟨?_, ?_, rfl⟩
    · rw [heq, updateGasCalibration_ceiling, hscan]
      dsimp only
      rw [hlen]
      have hc : ((GAS_CALIBRATION_DATA_POINTS : ℕ) : ℚ) = 100 := by
        norm_num [GAS_CALIBRATION_DATA_POINTS]
      rw [hc, D.div_fin _ _ (by norm_num), D.isnan_fin]
      rw [if_pos ⟨by norm_num [GAS_CALIBRATION_DATA_POINTS], rfl⟩]
    · rw [heq, updateGasCalibration_range, hscan]
      dsimp only
      rw [if_pos ⟨by rw [hlen]; norm_num [GAS_CALIBRATION_DATA_POINTS],
        by rw [D.lt_fin]; exact decide_eq_true hMpos⟩]
      rw [D.sub_fin, D.div_fin _ _ (ne_of_gt hMpos)]

/-- Witness for C4: one hundred copies of the value 1. -/
theorem buffer_fill_mean_range_witness :
    (insertAll (initialState 0) ((1 : ℚ) :: List.replicate 99 1)).gas_ceiling =
      D.fin (((1 : ℚ) :: List.replicate 99 1).sum / 100) ∧
    (insertAll (initialState 0) ((1 : ℚ) :: List.replicate 99 1)).gas_calibration_range =
      D.fin ((List.foldl Max.max 1 (List.replicate 99 (1 : ℚ)) -
        List.foldl Min.min 1 (List.replicate 99 (1 : ℚ))) /
        List.foldl Max.max 1 (List.replicate 99 (1 : ℚ))) ∧
    (initialState 0).gas_calibration_range = D.fin 1 :=
  buffer_fill_mean_range 1 (List.replicate 99 1) 0
    (by simp [GAS_CALIBRATION_DATA_POINTS])
    (by
      intro y hy
      rcases List.mem_cons.mp hy with h | h
      · rw [h]; norm_num
      · rw [List.eq_of_mem_replicate h]; norm_num)
